import Mathlib

/-!
Verification of the `tokendo` token filter (`src/tokendo/filter.py`).

The `TokenFilter` class is embedded shallowly: Python floats become `ℚ`,
the `collections.Counter` becomes an insertion-ordered association list,
in-place mutation becomes explicit state passing, and a raised exception
becomes an `Except` value that carries the state as mutated at raise time
(matching Python semantics, where mutations done before a raise persist on
the object).  The process-wide random generator used by reservoir sampling
is abstracted as an explicit draw function `draw : ℕ → ℕ` giving the value
of `random.randint(0, seen_lengths)` at each call site.
-/

namespace Tokendo

/-- A Python value passed as one end of `length_range`: an `int`, a `float`
(quantile), `None`, or any other value (which the constructor rejects).
Python floats are modelled as rationals. -/
inductive PyLen where
  | int (n : ℤ)
  | float (q : ℚ)
  | pnone
  | other
deriving DecidableEq

/-- The quantile value carried by a `PyLen`, as passed raw to `np.quantile`
(only ever used when the corresponding quantile flag is set, i.e. on the
`float` constructor). -/
def PyLen.toQ : PyLen → ℚ
  | .int n => (n : ℚ)
  | .float q => q
  | _ => 0

/-- Constructor arguments of `TokenFilter.__init__`. -/
structure Config where
  negative : List String
  lengthRange : PyLen × PyLen
  frequencyRange : ℚ × ℚ
  maxFeatures : Option ℕ
  maxMemory : ℕ
deriving DecidableEq

/-- The mutable attributes of a `TokenFilter` instance after construction. -/
structure State where
  negative : List String
  frequencyRange : ℚ × ℚ
  minl : PyLen
  maxl : PyLen
  minLengthQuantile : Bool
  minLength : ℚ
  maxLengthQuantile : Bool
  maxLength : Option ℚ
  lengthPool : List ℕ
  seenLengths : ℕ
  maxMemory : ℕ
  frequencies : List (String × ℕ)
  maxFeatures : Option ℕ
  mostCommon : Option (List String)
deriving DecidableEq

/-- The `collections.Counter` lookup `self.frequencies.get(token, 0)`:
count of a key in the insertion-ordered association list, 0 if absent. -/
def counterGet : List (String × ℕ) → String → ℕ
  | [], _ => 0
  | (k, v) :: rest, t => if k = t then v else counterGet rest t

/-- One increment of a `Counter`: bump the key if present, else append it
(Python dicts append new keys in insertion order). -/
def counterIncr : List (String × ℕ) → String → List (String × ℕ)
  | [], t => [(t, 1)]
  | (k, v) :: rest, t =>
      if k = t then (k, v + 1) :: rest else (k, v) :: counterIncr rest t

/-- `Counter.update(tokens)`: increment the count of every token in order. -/
def counterUpdate (l : List (String × ℕ)) (tokens : List String) : List (String × ℕ) :=
  tokens.foldl counterIncr l

/-- `Counter.total()`: sum of all counts. -/
def counterTotal (l : List (String × ℕ)) : ℕ :=
  (l.map Prod.snd).sum

/-- Stable insertion (by strictly larger count) used to model the stable
descending sort underlying `Counter.most_common`. -/
def insertByCount (p : String × ℕ) : List (String × ℕ) → List (String × ℕ)
  | [] => [p]
  | q :: rest => if q.2 < p.2 then p :: q :: rest else q :: insertByCount p rest

/-- `Counter.most_common(k)` (keys only): the `k` keys with the highest
counts, ties broken by first-insertion order. -/
def mostCommonTokens (l : List (String × ℕ)) (k : ℕ) : List String :=
  ((l.foldl (fun acc p => insertByCount p acc) []).take k).map Prod.fst

/-- Stable ascending insertion for sorting the length pool. -/
def insertAsc (x : ℕ) : List ℕ → List ℕ
  | [] => [x]
  | y :: rest => if x ≤ y then x :: y :: rest else y :: insertAsc x rest

/-- Ascending insertion sort of the recorded lengths. -/
def sortAsc (xs : List ℕ) : List ℕ :=
  xs.foldr insertAsc []

/-- The linear-interpolation quantile of a nonempty sorted sample, as
computed by NumPy's default interpolation method. -/
def interpQuantile (xs : List ℕ) (q : ℚ) : ℚ :=
  let s := sortAsc xs
  let n := s.length
  let h : ℚ := q * ((n : ℚ) - 1)
  let i : ℕ := h.floor.toNat
  let lo : ℚ := (s.getD i 0 : ℕ)
  let hi : ℚ := (s.getD (i + 1) (s.getD i 0) : ℕ)
  lo + (h - (i : ℚ)) * (hi - lo)

/-- Model of `numpy.quantile` (external dependency): rejects a quantile
outside `[0, 1]` with a `ValueError`, raises an `IndexError` on an empty
sample, and otherwise returns the linearly interpolated quantile. -/
def npQuantile (xs : List ℕ) (q : ℚ) : Except String ℚ :=
  if q < 0 ∨ 1 < q then .error "Quantiles must be in the range [0, 1]"
  else
    match xs with
    | [] => .error "cannot do a non-empty take from an empty axes"
    | _ :: _ => .ok (interpQuantile xs q)

/-- State fields produced by a successful `TokenFilter.__init__`. -/
def mkState (cfg : Config) (mq : Bool) (mv : ℚ) (xq : Bool) (xv : Option ℚ) : State :=
  { negative := cfg.negative
    frequencyRange := cfg.frequencyRange
    minl := cfg.lengthRange.1
    maxl := cfg.lengthRange.2
    minLengthQuantile := mq
    minLength := mv
    maxLengthQuantile := xq
    maxLength := xv
    lengthPool := []
    seenLengths := 0
    maxMemory := cfg.maxMemory
    frequencies := []
    maxFeatures := cfg.maxFeatures
    mostCommon := none }

/-- The `isinstance` dispatch of `__init__` on the minimum length bound:
an `int` is an absolute bound, a `float` a quantile (resolved bound starts
at 0), anything else raises `ValueError`. -/
def resolveMin : PyLen → Except String (Bool × ℚ)
  | .int n => .ok (false, (n : ℚ))
  | .float _ => .ok (true, 0)
  | _ => .error "Minimum length either has to be float or int."

/-- The `isinstance` dispatch of `__init__` on the maximum length bound:
`int` absolute, `float` quantile (resolved bound starts unbounded), `None`
unbounded, anything else raises `ValueError`. -/
def resolveMax : PyLen → Except String (Bool × Option ℚ)
  | .int n => .ok (false, some (n : ℚ))
  | .float _ => .ok (true, none)
  | .pnone => .ok (false, none)
  | .other => .error "Minimum length either has to be float or int."

/-- `TokenFilter.__init__`: validates the two length bounds (minimum first,
as in the source) and builds the initial state.  Note that it performs no
validation of `frequency_range`. -/
def init (cfg : Config) : Except String State :=
  match resolveMin cfg.lengthRange.1 with
  | .error e => .error e
  | .ok (mq, mv) =>
      match resolveMax cfg.lengthRange.2 with
      | .error e => .error e
      | .ok (xq, xv) => .ok (mkState cfg mq mv xq xv)

/-- `TokenFilter.append_reservoir`: record a token's length by reservoir
sampling.  `draw seen` stands for `random.randint(0, seen)`. -/
def append_reservoir (draw : ℕ → ℕ) (s : State) (token : String) : State :=
  if s.seenLengths < s.maxMemory then
    { s with lengthPool := s.lengthPool ++ [token.length]
             seenLengths := s.seenLengths + 1 }
  else
    let j := draw s.seenLengths
    { s with lengthPool :=
               if j < s.maxMemory then s.lengthPool.set j token.length
               else s.lengthPool
             seenLengths := s.seenLengths + 1 }

/-- The quantile-recomputation block of `partial_fit` (maximum bound first,
then minimum, as in the source).  On a NumPy error the state as already
mutated is carried in the error, matching in-place mutation semantics. -/
def resolveQuantiles (s : State) : Except (String × State) State :=
  match (if s.maxLengthQuantile then
           match npQuantile s.lengthPool s.maxl.toQ with
           | .error e => .error (e, s)
           | .ok v => .ok { s with maxLength := some v }
         else .ok s : Except (String × State) State) with
  | .error e => .error e
  | .ok s2 =>
      if s2.minLengthQuantile then
        match npQuantile s2.lengthPool s2.minl.toQ with
        | .error e => .error (e, s2)
        | .ok v => .ok { s2 with minLength := v }
      else .ok s2

/-- The frequency-table update and most-common-vocabulary recomputation at
the end of `partial_fit` (the vocabulary is recomputed from the already
updated table, as `self.frequencies` has been updated by then). -/
def updateFreqMC (s : State) (tokens : List String) : State :=
  match s.maxFeatures with
  | some k =>
      { s with frequencies := counterUpdate s.frequencies tokens
               mostCommon :=
                 some (mostCommonTokens (counterUpdate s.frequencies tokens) k) }
  | none => { s with frequencies := counterUpdate s.frequencies tokens }

/-- `TokenFilter.partial_fit`: feed every token of every document (in
document order, then token order) through the reservoir, recompute any
quantile-configured length bounds, update the frequency table, and
recompute the most-common vocabulary when a cap is configured.  An error
carries the state as mutated so far. -/
def partial_fit (draw : ℕ → ℕ) (s : State) (X : List (List String)) :
    Except (String × State) State :=
  match resolveQuantiles (X.flatten.foldl (append_reservoir draw) s) with
  | .error e => .error e
  | .ok s3 => .ok (updateFreqMC s3 X.flatten)

/-- `TokenFilter.fit`: delegates to `partial_fit`. -/
def fit (draw : ℕ → ℕ) (s : State) (X : List (List String)) :
    Except (String × State) State :=
  partial_fit draw s X

/-- A sequence of fitting calls, stopping at the first error. -/
def fitSeq (draw : ℕ → ℕ) (s : State) : List (List (List String)) →
    Except (String × State) State
  | [] => .ok s
  | b :: bs =>
      match partial_fit draw s b with
      | .ok s' => fitSeq draw s' bs
      | .error e => .error e

/-- The relative frequency computed inside `TokenFilter.passes`: count
divided by the total of the frequency table, taken as 0 when the total
is 0. -/
def relFreq (s : State) (t : String) : ℚ :=
  if counterTotal s.frequencies = 0 then 0
  else (counterGet s.frequencies t : ℚ) / (counterTotal s.frequencies : ℚ)

/-- `TokenFilter.passes`: the decision predicate. -/
def passes (s : State) (t : String) : Bool :=
  let token_length : ℚ := (t.length : ℚ)
  let token_frequency : ℚ := relFreq s t
  let max_pass : Bool :=
    match s.maxLength with
    | none => true
    | some m => decide (token_length ≤ m)
  let min_pass : Bool := decide (s.minLength ≤ token_length)
  let freq_pass : Bool :=
    decide (s.frequencyRange.1 ≤ token_frequency) &&
      decide (token_frequency ≤ s.frequencyRange.2)
  let is_in_most_common : Bool :=
    match s.mostCommon with
    | none => true
    | some mc => decide (t ∈ mc)
  (!decide (t ∈ s.negative)) && max_pass && min_pass && freq_pass &&
    is_in_most_common

/-- `TokenFilter.transform`: build, document by document, the list of the
tokens that pass. -/
def transform (s : State) (X : List (List String)) : List (List String) :=
  X.foldl (fun res doc => res ++ [doc.filter (fun t => passes s t)]) []

/-- Total number of tokens across a sequence of fitting batches. -/
def totalTokens (batches : List (List (List String))) : ℕ :=
  (batches.map (fun X => X.flatten.length)).sum

/-- Whether an `Except` value is a success. -/
def exceptIsOk {ε α : Type} : Except ε α → Bool
  | .ok _ => true
  | .error _ => false

/-- The seen-count carried inside an error result of `partial_fit`
(the state of the filter at the moment the exception was raised). -/
def errSeen : Except (String × State) State → Option ℕ
  | .error (_, s) => some s.seenLengths
  | .ok _ => none

/-- A concrete draw function (every `random.randint` call returning 0). -/
def draw0 : ℕ → ℕ := fun _ => 0

/-- The all-default configuration of `TokenFilter()`. -/
def defaultConfig : Config :=
  { negative := []
    lengthRange := (.int 0, .pnone)
    frequencyRange := (0, 1)
    maxFeatures := none
    maxMemory := 5000 }

/-- A length bound accepted by the constructor as minimum (int or float). -/
def validMinBound : PyLen → Bool
  | .int _ => true
  | .float _ => true
  | _ => false

/-- A length bound accepted by the constructor as maximum (int, float or
`None`). -/
def validMaxBound : PyLen → Bool
  | .int _ => true
  | .float _ => true
  | .pnone => true
  | .other => false

/-- The state of `TokenFilter()` (all defaults) before any fitting call. -/
def d0 : State := mkState defaultConfig false 0 false none

/-- The default filter after `partial_fit([["a"]])`. -/
def sA : State :=
  { d0 with lengthPool := [1], seenLengths := 1, frequencies := [("a", 1)] }

/-- The state `sA` after a further `partial_fit([["a", "b"]])`. -/
def sB : State :=
  { sA with lengthPool := [1, 1, 1], seenLengths := 3,
            frequencies := [("a", 2), ("b", 1)] }

/-- The state `sA` after a further `partial_fit([["a"]])`. -/
def sA2 : State :=
  { sA with lengthPool := [1, 1], seenLengths := 2, frequencies := [("a", 2)] }

/-- The default filter after `partial_fit([["w"]])`. -/
def d0w : State :=
  { d0 with lengthPool := [1], seenLengths := 1, frequencies := [("w", 1)] }

/-- A configuration with an out-of-range quantile maximum length bound
(`length_range=(0, 1.5)`), accepted by the constructor. -/
def cfgC4x : Config := { defaultConfig with lengthRange := (.int 0, .float (3/2)) }

/-- The state constructed from `cfgC4x`. -/
def sC4x : State := mkState cfgC4x false 0 true none

/-- A configuration with in-range quantile length bounds
(`length_range=(0.25, 0.75)`). -/
def cfg4w : Config :=
  { defaultConfig with lengthRange := (.float (1/4), .float (3/4)) }

/-- The state constructed from `cfg4w`. -/
def s4w : State := mkState cfg4w true 0 true none

/-- A configuration whose frequency range is mis-ordered
(`frequency_range=(0.5, 0.2)`). -/
def cfg510 : Config := { defaultConfig with frequencyRange := (1/2, 1/5) }

/-- The state constructed from `cfg510`. -/
def s510 : State := mkState cfg510 false 0 false none

/-- A configuration with quantile length bounds `length_range=(0.1, 0.9)`. -/
def cfgC6x : Config :=
  { defaultConfig with lengthRange := (.float (1/10), .float (9/10)) }

/-- The state constructed from `cfgC6x`. -/
def sC6x : State := mkState cfgC6x true 0 true none

/-- A configuration with a positive frequency lower bound
(`frequency_range=(0.5, 1.0)`). -/
def cfgW1 : Config := { defaultConfig with frequencyRange := (1/2, 1) }

/-- The state constructed from `cfgW1`. -/
def sW1 : State := mkState cfgW1 false 0 false none

/-- A small-capacity configuration (`max_memory=2`). -/
def cfg8 : Config := { defaultConfig with maxMemory := 2 }

/-- The state constructed from `cfg8`. -/
def s8 : State := mkState cfg8 false 0 false none

/-- One fitting batch of three one-character tokens. -/
def batches8 : List (List (List String)) := [[["a", "b", "c"]]]

/-- The state `s8` after fitting `batches8`. -/
def s8' : State :=
  { s8 with lengthPool := [1, 1], seenLengths := 3,
            frequencies := [("a", 1), ("b", 1), ("c", 1)] }

/-- A configuration with a vocabulary cap (`max_features=2`). -/
def cfg10 : Config := { defaultConfig with maxFeatures := some 2 }

/-- The state constructed from `cfg10`. -/
def s10 : State := mkState cfg10 false 0 false none

section Lemmas

variable (draw : ℕ → ℕ)

lemma append_reservoir_seen (s : State) (t : String) :
    (append_reservoir draw s t).seenLengths = s.seenLengths + 1 := by
  unfold append_reservoir
  split <;> rfl

lemma append_reservoir_fields (s : State) (t : String) :
    (append_reservoir draw s t).frequencies = s.frequencies ∧
    (append_reservoir draw s t).maxMemory = s.maxMemory ∧
    (append_reservoir draw s t).maxLengthQuantile = s.maxLengthQuantile ∧
    (append_reservoir draw s t).minLengthQuantile = s.minLengthQuantile ∧
    (append_reservoir draw s t).maxl = s.maxl ∧
    (append_reservoir draw s t).minl = s.minl ∧
    (append_reservoir draw s t).frequencyRange = s.frequencyRange ∧
    (append_reservoir draw s t).negative = s.negative ∧
    (append_reservoir draw s t).maxFeatures = s.maxFeatures ∧
    (append_reservoir draw s t).mostCommon = s.mostCommon := by
  unfold append_reservoir
  split <;> exact ⟨rfl, rfl, rfl, rfl, rfl, rfl, rfl, rfl, rfl, rfl⟩

lemma append_reservoir_pool_len (s : State) (t : String)
    (h : s.lengthPool.length = min s.seenLengths s.maxMemory) :
    (append_reservoir draw s t).lengthPool.length =
      min (s.seenLengths + 1) s.maxMemory := by
  unfold append_reservoir
  split
  · next hlt =>
      simp only [List.length_append, List.length_singleton, h]
      omega
  · next hge =>
      simp only []
      split <;> simp only [List.length_set, h] <;> omega

lemma foldl_ar_seen : ∀ (tokens : List String) (s : State),
    (tokens.foldl (append_reservoir draw) s).seenLengths =
      s.seenLengths + tokens.length := by
  intro tokens
  induction tokens with
  | nil => intro s; simp
  | cons t ts ih =>
      intro s
      simp only [List.foldl_cons, ih, append_reservoir_seen, List.length_cons]
      omega

lemma foldl_ar_fields : ∀ (tokens : List String) (s : State),
    (tokens.foldl (append_reservoir draw) s).frequencies = s.frequencies ∧
    (tokens.foldl (append_reservoir draw) s).maxMemory = s.maxMemory ∧
    (tokens.foldl (append_reservoir draw) s).maxLengthQuantile = s.maxLengthQuantile ∧
    (tokens.foldl (append_reservoir draw) s).minLengthQuantile = s.minLengthQuantile ∧
    (tokens.foldl (append_reservoir draw) s).maxl = s.maxl ∧
    (tokens.foldl (append_reservoir draw) s).minl = s.minl ∧
    (tokens.foldl (append_reservoir draw) s).frequencyRange = s.frequencyRange ∧
    (tokens.foldl (append_reservoir draw) s).negative = s.negative ∧
    (tokens.foldl (append_reservoir draw) s).maxFeatures = s.maxFeatures ∧
    (tokens.foldl (append_reservoir draw) s).mostCommon = s.mostCommon := by
  intro tokens
  induction tokens with
  | nil => intro s; simp
  | cons t ts ih =>
      intro s
      have h1 := append_reservoir_fields draw s t
      have h2 := ih (append_reservoir draw s t)
      simp only [List.foldl_cons]
      exact ⟨h2.1.trans h1.1, h2.2.1.trans h1.2.1, h2.2.2.1.trans h1.2.2.1,
        h2.2.2.2.1.trans h1.2.2.2.1, h2.2.2.2.2.1.trans h1.2.2.2.2.1,
        h2.2.2.2.2.2.1.trans h1.2.2.2.2.2.1, h2.2.2.2.2.2.2.1.trans h1.2.2.2.2.2.2.1,
        h2.2.2.2.2.2.2.2.1.trans h1.2.2.2.2.2.2.2.1,
        h2.2.2.2.2.2.2.2.2.1.trans h1.2.2.2.2.2.2.2.2.1,
        h2.2.2.2.2.2.2.2.2.2.trans h1.2.2.2.2.2.2.2.2.2⟩

lemma foldl_ar_pool_inv : ∀ (tokens : List String) (s : State),
    s.lengthPool.length = min s.seenLengths s.maxMemory →
    (tokens.foldl (append_reservoir draw) s).lengthPool.length =
      min (s.seenLengths + tokens.length) s.maxMemory := by
  intro tokens
  induction tokens with
  | nil => intro s h; simpa using h
  | cons t ts ih =>
      intro s h
      have h1 := append_reservoir_pool_len draw s t h
      have h2 := ih (append_reservoir draw s t)
        (by rw [h1, append_reservoir_seen, (append_reservoir_fields draw s t).2.1])
      rw [List.foldl_cons, h2, append_reservoir_seen,
        (append_reservoir_fields draw s t).2.1, List.length_cons]
      omega

lemma counterGet_incr (l : List (String × ℕ)) (u t : String) :
    counterGet (counterIncr l u) t =
      counterGet l t + if u = t then 1 else 0 := by
  induction l with
  | nil =>
      by_cases h : u = t <;> simp [counterIncr, counterGet, h]
  | cons p rest ih =>
      obtain ⟨k, v⟩ := p
      by_cases hk : k = u
      · subst hk
        by_cases ht : k = t <;> simp [counterIncr, counterGet, ht]
      · by_cases ht : k = t
        · have hut : ¬ u = t := fun h => hk (ht.trans h.symm)
          have htu : ¬ t = u := fun h => hk (ht.trans h)
          simp [counterIncr, counterGet, hk, ht, hut, htu]
        · simp [counterIncr, counterGet, hk, ht, ih]

lemma counterTotal_incr (l : List (String × ℕ)) (u : String) :
    counterTotal (counterIncr l u) = counterTotal l + 1 := by
  induction l with
  | nil => simp [counterIncr, counterTotal]
  | cons p rest ih =>
      obtain ⟨k, v⟩ := p
      by_cases hk : k = u
      · rw [show counterIncr ((k, v) :: rest) u = (k, v + 1) :: rest from by
          simp [counterIncr, hk]]
        simp [counterTotal]
        omega
      · rw [show counterIncr ((k, v) :: rest) u = (k, v) :: counterIncr rest u from by
          simp [counterIncr, hk]]
        have hh := ih
        simp [counterTotal] at hh ⊢
        omega

lemma counterGet_update (ts : List String) : ∀ (l : List (String × ℕ)) (t : String),
    counterGet (counterUpdate l ts) t = counterGet l t + ts.count t := by
  induction ts with
  | nil => intro l t; simp [counterUpdate]
  | cons u us ih =>
      intro l t
      have : counterUpdate l (u :: us) = counterUpdate (counterIncr l u) us := rfl
      rw [this, ih, counterGet_incr, List.count_cons]
      by_cases h : u = t
      · simp [h]
        omega
      · have h2 : ¬ (u == t) = true := by simpa using h
        simp [h, h2]

lemma counterTotal_update (ts : List String) : ∀ (l : List (String × ℕ)),
    counterTotal (counterUpdate l ts) = counterTotal l + ts.length := by
  induction ts with
  | nil => intro l; simp [counterUpdate]
  | cons u us ih =>
      intro l
      have : counterUpdate l (u :: us) = counterUpdate (counterIncr l u) us := rfl
      rw [this, ih, counterTotal_incr, List.length_cons]
      omega

lemma npQuantile_error_in_range (xs : List ℕ) (q : ℚ) (e : String)
    (h0 : 0 ≤ q) (h1 : q ≤ 1) (h : npQuantile xs q = .error e) : xs = [] := by
  unfold npQuantile at h
  rw [if_neg (by simp [not_or, not_lt, h0, h1])] at h
  cases xs with
  | nil => rfl
  | cons x xs => simp at h

lemma npQuantile_nil_ne_ok (q : ℚ) (v : ℚ) : npQuantile [] q ≠ .ok v := by
  unfold npQuantile
  split <;> simp

lemma resolveQuantiles_ok (s s3 : State) (h : resolveQuantiles s = .ok s3) :
    s3.frequencies = s.frequencies ∧
    s3.seenLengths = s.seenLengths ∧
    s3.lengthPool = s.lengthPool ∧
    s3.maxMemory = s.maxMemory ∧
    s3.frequencyRange = s.frequencyRange ∧
    s3.negative = s.negative ∧
    s3.maxFeatures = s.maxFeatures ∧
    s3.mostCommon = s.mostCommon := by
  unfold resolveQuantiles at h
  split at h
  · simp at h
  · next s2 hs2 =>
      have hfields : s2.frequencies = s.frequencies ∧ s2.seenLengths = s.seenLengths ∧
          s2.lengthPool = s.lengthPool ∧ s2.maxMemory = s.maxMemory ∧
          s2.frequencyRange = s.frequencyRange ∧ s2.negative = s.negative ∧
          s2.maxFeatures = s.maxFeatures ∧ s2.mostCommon = s.mostCommon ∧
          s2.minLengthQuantile = s.minLengthQuantile ∧ s2.minl = s.minl := by
        split at hs2
        · split at hs2
          · simp at hs2
          · simp only [Except.ok.injEq] at hs2
            subst hs2
            exact ⟨rfl, rfl, rfl, rfl, rfl, rfl, rfl, rfl, rfl, rfl⟩
        · simp only [Except.ok.injEq] at hs2
          subst hs2
          exact ⟨rfl, rfl, rfl, rfl, rfl, rfl, rfl, rfl, rfl, rfl⟩
      split at h
      · split at h
        · simp at h
        · simp only [Except.ok.injEq] at h
          subst h
          exact ⟨hfields.1, hfields.2.1, hfields.2.2.1, hfields.2.2.2.1,
            hfields.2.2.2.2.1, hfields.2.2.2.2.2.1, hfields.2.2.2.2.2.2.1,
            hfields.2.2.2.2.2.2.2.1⟩
      · simp only [Except.ok.injEq] at h
        subst h
        exact ⟨hfields.1, hfields.2.1, hfields.2.2.1, hfields.2.2.2.1,
          hfields.2.2.2.2.1, hfields.2.2.2.2.2.1, hfields.2.2.2.2.2.2.1,
          hfields.2.2.2.2.2.2.2.1⟩

lemma updateFreqMC_frequencies (s : State) (ts : List String) :
    (updateFreqMC s ts).frequencies = counterUpdate s.frequencies ts := by
  unfold updateFreqMC
  split <;> rfl

lemma updateFreqMC_fields (s : State) (ts : List String) :
    (updateFreqMC s ts).seenLengths = s.seenLengths ∧
    (updateFreqMC s ts).lengthPool = s.lengthPool ∧
    (updateFreqMC s ts).maxMemory = s.maxMemory := by
  unfold updateFreqMC
  split <;> exact ⟨rfl, rfl, rfl⟩

lemma partial_fit_ok_fields (s : State) (X : List (List String)) (s' : State)
    (h : partial_fit draw s X = .ok s') :
    s'.frequencies = counterUpdate s.frequencies X.flatten ∧
    s'.seenLengths = s.seenLengths + X.flatten.length ∧
    s'.maxMemory = s.maxMemory ∧
    s'.lengthPool = (X.flatten.foldl (append_reservoir draw) s).lengthPool := by
  unfold partial_fit at h
  split at h
  · simp at h
  · next s3 hs3 =>
      simp only [Except.ok.injEq] at h
      subst h
      have hfold := foldl_ar_fields draw X.flatten s
      have hseen := foldl_ar_seen draw X.flatten s
      have hq := resolveQuantiles_ok _ s3 hs3
      have hu := updateFreqMC_fields s3 X.flatten
      refine ⟨?_, ?_, ?_, ?_⟩
      · rw [updateFreqMC_frequencies, hq.1, hfold.1]
      · rw [hu.1, hq.2.1, hseen]
      · rw [hu.2.2, hq.2.2.2.1, hfold.2.1]
      · rw [hu.2.1, hq.2.2.1]

lemma partial_fit_ok_pool (s : State) (X : List (List String)) (s' : State)
    (hinv : s.lengthPool.length = min s.seenLengths s.maxMemory)
    (h : partial_fit draw s X = .ok s') :
    s'.lengthPool.length = min s'.seenLengths s'.maxMemory := by
  obtain ⟨-, hseen, hmm, hpool⟩ := partial_fit_ok_fields draw s X s' h
  rw [hpool, hseen, hmm, foldl_ar_pool_inv draw X.flatten s hinv]

lemma fitSeq_ok_inv : ∀ (batches : List (List (List String))) (s s' : State),
    fitSeq draw s batches = .ok s' →
    s.lengthPool.length = min s.seenLengths s.maxMemory →
    s'.seenLengths = s.seenLengths + totalTokens batches ∧
    s'.maxMemory = s.maxMemory ∧
    s'.lengthPool.length = min s'.seenLengths s'.maxMemory := by
  intro batches
  induction batches with
  | nil =>
      intro s s' h hinv
      simp only [fitSeq, Except.ok.injEq] at h
      subst h
      exact ⟨by simp [totalTokens], rfl, hinv⟩
  | cons b bs ih =>
      intro s s' h hinv
      unfold fitSeq at h
      split at h
      · next s1 hs1 =>
          have h1 := partial_fit_ok_fields draw s b s1 hs1
          have h1p := partial_fit_ok_pool draw s b s1 hinv hs1
          obtain ⟨hseen', hmm', hpool'⟩ := ih s1 s' h h1p
          refine ⟨?_, hmm'.trans h1.2.2.1, hpool'⟩
          rw [hseen', h1.2.1]
          simp [totalTokens]
          omega
      · simp at h

lemma init_ok_state (cfg : Config) (s : State) (h : init cfg = .ok s) :
    s.lengthPool = [] ∧ s.seenLengths = 0 ∧ s.frequencies = [] ∧
    s.mostCommon = none ∧ s.maxMemory = cfg.maxMemory ∧
    s.frequencyRange = cfg.frequencyRange ∧ s.negative = cfg.negative ∧
    s.maxFeatures = cfg.maxFeatures := by
  unfold init at h
  split at h
  · simp at h
  · next p hp =>
      split at h
      · simp at h
      · next p2 hp2 =>
          simp only [Except.ok.injEq] at h
          subst h
          exact ⟨rfl, rfl, rfl, rfl, rfl, rfl, rfl, rfl⟩

lemma init_setMaxFeatures (cfg : Config) (mf : Option ℕ) (s : State)
    (h : init cfg = .ok s) :
    init { cfg with maxFeatures := mf } = .ok { s with maxFeatures := mf } := by
  obtain ⟨neg, ⟨lmin, lmax⟩, fr, mf0, mm⟩ := cfg
  cases lmin <;> cases lmax <;>
    simp_all [init, resolveMin, resolveMax, mkState] <;>
    simp [← h]

lemma passes_setMaxFeatures (s : State) (mf : Option ℕ) (t : String) :
    passes { s with maxFeatures := mf } t = passes s t := rfl

lemma resolveQuantiles_error_state (s : State) (e : String) (s' : State)
    (hqmax : s.maxLengthQuantile = true → 0 ≤ s.maxl.toQ ∧ s.maxl.toQ ≤ 1)
    (hqmin : s.minLengthQuantile = true → 0 ≤ s.minl.toQ ∧ s.minl.toQ ≤ 1)
    (h : resolveQuantiles s = .error (e, s')) :
    s.lengthPool = [] ∧ s' = s := by
  unfold resolveQuantiles at h
  split at h
  · next e2 heq =>
      simp only [Except.error.injEq] at h
      subst h
      split at heq
      · next hflag =>
          split at heq
          · next em hnp =>
              simp only [Except.error.injEq, Prod.mk.injEq] at heq
              obtain ⟨hqm0, hqm1⟩ := hqmax hflag
              have hnil := npQuantile_error_in_range _ _ _ hqm0 hqm1 hnp
              exact ⟨hnil, heq.2.symm⟩
          · simp at heq
      · simp at heq
  · next s2 heq2 =>
      split at h
      · next hflag2 =>
          split at h
          · next em hnp =>
              simp only [Except.error.injEq, Prod.mk.injEq] at h
              obtain ⟨hem, hs2⟩ := h
              split at heq2
              · next hflag =>
                  split at heq2
                  · simp at heq2
                  · next v hok =>
                      simp only [Except.ok.injEq] at heq2
                      subst heq2
                      obtain ⟨hqm0, hqm1⟩ := hqmin (by simpa using hflag2)
                      have hnil := npQuantile_error_in_range _ _ _ hqm0 hqm1
                        (by simpa using hnp)
                      exact absurd (hnil ▸ hok) (npQuantile_nil_ne_ok _ _)
              · next hflag =>
                  simp only [Except.ok.injEq] at heq2
                  subst heq2
                  obtain ⟨hqm0, hqm1⟩ := hqmin hflag2
                  have hnil := npQuantile_error_in_range _ _ _ hqm0 hqm1 hnp
                  exact ⟨hnil, hs2.symm⟩
          · simp at h
      · simp at h

lemma relFreq_nonneg (s : State) (t : String) : 0 ≤ relFreq s t := by
  unfold relFreq
  split
  · exact le_refl 0
  · positivity

lemma foldl_append_eq_map {α β : Type} (f : α → β) :
    ∀ (X : List α) (acc : List β),
      X.foldl (fun r d => r ++ [f d]) acc = acc ++ X.map f := by
  intro X
  induction X with
  | nil => intro acc; simp
  | cons d ds ih => intro acc; simp [ih]

lemma transform_eq_map_filter (s : State) (X : List (List String)) :
    transform s X = X.map (fun doc => doc.filter (fun t => passes s t)) := by
  unfold transform
  simpa using foldl_append_eq_map (fun doc => doc.filter (fun t => passes s t)) X []

end Lemmas

/-- C1: `passes t` is true iff all five conditions hold: `t` is not in the
deny-list; `len t` is at most the resolved maximum length or that bound is
unbounded; `len t` is at least the resolved minimum length; the relative
frequency of `t` (count over total, 0 when the total is 0) lies within the
configured frequency range; and the most-common vocabulary is unset or
contains `t`.  Moreover, before any fitting call every token's frequency
is 0, so a configured frequency lower bound above 0 makes `passes` reject
every token. -/
theorem tokendo_C1 :
    (∀ (s : State) (t : String),
      passes s t = true ↔
        (t ∉ s.negative ∧
         (s.maxLength = none ∨ ∃ m, s.maxLength = some m ∧ (t.length : ℚ) ≤ m) ∧
         s.minLength ≤ (t.length : ℚ) ∧
         (s.frequencyRange.1 ≤ relFreq s t ∧ relFreq s t ≤ s.frequencyRange.2) ∧
         (s.mostCommon = none ∨ ∃ mc, s.mostCommon = some mc ∧ t ∈ mc))) ∧
    (∀ (cfg : Config) (s : State) (t : String),
      init cfg = .ok s → 0 < s.frequencyRange.1 → passes s t = false) := by
  constructor
  · intro s t
    unfold passes
    cases hM : s.maxLength <;> cases hmc : s.mostCommon <;>
      simp [hM, hmc] <;> tauto
  · intro cfg s t hinit hpos
    have hfreq := (init_ok_state cfg s hinit).2.2.1
    have h0 : relFreq s t = 0 := by simp [relFreq, hfreq, counterTotal]
    have hd : decide (s.frequencyRange.1 ≤ relFreq s t) = false := by
      rw [decide_eq_false_iff_not]
      rw [h0]
      exact not_le.mpr hpos
    simp [passes, hd]

/-- C1 witness: with `frequency_range=(0.5, 1.0)` and no fitting call, the
token `"tok"` is rejected. -/
theorem tokendo_C1_witness : passes sW1 "tok" = false :=
  tokendo_C1.2 cfgW1 sW1 "tok" rfl
    (by norm_num [sW1, mkState, cfgW1, defaultConfig])

/-- C2: `transform` maps every document to the subsequence of its tokens
satisfying the decision predicate (`List.filter`, which keeps the original
token order), preserving the number and order of documents; it takes the
state purely and mutates nothing, so two calls on the same input with the
same state give the same result. -/
theorem tokendo_C2 :
    ∀ (s : State) (X : List (List String)),
      transform s X = X.map (fun doc => doc.filter (fun t => passes s t)) ∧
      (transform s X).length = X.length := by
  intro s X
  have h := transform_eq_map_filter s X
  exact ⟨h, by rw [h, List.length_map]⟩

/-- C3 counterexample: starting from the default filter fitted on
`[["a"]]` (where the relative frequency of `"a"` is 1), a further
`partial_fit([["a", "b"]])` — whose batch contains `"a"` again — drops the
relative frequency of `"a"` to 2/3, so it does decrease. -/
theorem tokendo_C3_counterexample :
    partial_fit draw0 d0 [["a"]] = .ok sA ∧
    partial_fit draw0 sA [["a", "b"]] = .ok sB ∧
    "a" ∈ ([["a", "b"]] : List (List String)).flatten ∧
    relFreq sB "a" < relFreq sA "a" := by
  refine ⟨rfl, rfl, by simp, ?_⟩
  norm_num [relFreq, sB, sA, d0, mkState, defaultConfig, counterTotal, counterGet]

/-- C3 amended: across a successful `partial_fit` whose batch contains the
token `t`, the relative frequency of `t` does not decrease PROVIDED the
share of `t` within the batch is at least its prior relative frequency
(without that proviso the frequency can decrease, as the counterexample
shows; the counts themselves only accumulate). -/
theorem tokendo_C3 (draw : ℕ → ℕ) (s : State) (X : List (List String))
    (s' : State) (t : String)
    (h : partial_fit draw s X = .ok s')
    (hmem : t ∈ X.flatten)
    (hshare : relFreq s t ≤ (X.flatten.count t : ℚ) / (X.flatten.length : ℚ)) :
    relFreq s t ≤ relFreq s' t := by
  have hfreq := (partial_fit_ok_fields draw s X s' h).1
  have hget : counterGet s'.frequencies t =
      counterGet s.frequencies t + X.flatten.count t := by
    rw [hfreq, counterGet_update]
  have htot : counterTotal s'.frequencies =
      counterTotal s.frequencies + X.flatten.length := by
    rw [hfreq, counterTotal_update]
  have hm1 : 0 < X.flatten.length := List.length_pos_of_mem hmem
  by_cases hT : counterTotal s.frequencies = 0
  · have h1 : relFreq s t = 0 := by simp [relFreq, hT]
    rw [h1]
    exact relFreq_nonneg s' t
  · have hT' : counterTotal s'.frequencies ≠ 0 := by rw [htot]; omega
    have h1 : relFreq s t =
        (counterGet s.frequencies t : ℚ) / (counterTotal s.frequencies : ℚ) := by
      simp [relFreq, hT]
    have h2 : relFreq s' t =
        ((counterGet s.frequencies t : ℕ) + (X.flatten.count t : ℕ) : ℚ) /
          ((counterTotal s.frequencies : ℕ) + (X.flatten.length : ℕ) : ℚ) := by
      unfold relFreq
      rw [if_neg hT', hget, htot]
      push_cast
      ring_nf
    have hTpos : (0 : ℚ) < (counterTotal s.frequencies : ℚ) :=
      Nat.cast_pos.mpr (Nat.pos_of_ne_zero hT)
    have hmpos : (0 : ℚ) < (X.flatten.length : ℚ) := Nat.cast_pos.mpr hm1
    have hTm : (0 : ℚ) <
        ((counterTotal s.frequencies : ℕ) : ℚ) + ((X.flatten.length : ℕ) : ℚ) := by
      positivity
    rw [h1] at hshare
    rw [div_le_div_iff₀ hTpos hmpos] at hshare
    rw [h1, h2, div_le_div_iff₀ hTpos hTm]
    nlinarith [hshare]

/-- C3 witness: fitting `sA` (frequency of `"a"` equal to 1) on the batch
`[["a"]]`, whose share of `"a"` is 1, keeps the relative frequency of
`"a"` at 1. -/
theorem tokendo_C3_witness : relFreq sA "a" ≤ relFreq sA2 "a" :=
  tokendo_C3 draw0 sA [["a"]] sA2 "a" rfl (by simp)
    (by norm_num [relFreq, sA, d0, mkState, defaultConfig, counterTotal,
      counterGet])

/-- C4 counterexample: the constructor accepts the out-of-range quantile
bound `length_range=(0, 1.5)`; on that filter, `partial_fit([["ab"]])`
raises (from `np.quantile`) only AFTER the reservoir and seen-count were
updated, and before the frequency table was touched — a partial success,
contradicting atomicity over every constructible state. -/
theorem tokendo_C4_counterexample :
    init cfgC4x = .ok sC4x ∧
    partial_fit draw0 sC4x [["ab"]] =
      .error ("Quantiles must be in the range [0, 1]",
        { sC4x with lengthPool := [2], seenLengths := 1 }) ∧
    sC4x.seenLengths = 0 ∧ sC4x.lengthPool = [] ∧
    ({ sC4x with lengthPool := [2], seenLengths := 1 } : State) ≠ sC4x := by
  refine ⟨rfl, ?_, rfl, rfl, ?_⟩
  · norm_num [partial_fit, resolveQuantiles, npQuantile, append_reservoir,
      sC4x, mkState, cfgC4x, defaultConfig, PyLen.toQ, draw0,
      show "ab".length = 2 from rfl]
  · simp [sC4x, mkState]

/-- C4 amended: a fitting call is atomic with respect to its own failure
for every filter state whose quantile-configured bounds lie in [0, 1],
whose capacity is at least 1, and whose reservoir satisfies the
cardinality invariant (true of every state the filter can reach): if
`partial_fit` raises, the state carried at the raise equals the input
state, so nothing was mutated.  (With an out-of-range quantile bound —
accepted by the constructor — atomicity fails, per the counterexample.) -/
theorem tokendo_C4 (draw : ℕ → ℕ) (s : State) (X : List (List String))
    (m : String) (s' : State)
    (hqmax : s.maxLengthQuantile = true → 0 ≤ s.maxl.toQ ∧ s.maxl.toQ ≤ 1)
    (hqmin : s.minLengthQuantile = true → 0 ≤ s.minl.toQ ∧ s.minl.toQ ≤ 1)
    (hC : 1 ≤ s.maxMemory)
    (hinv : s.lengthPool.length = min s.seenLengths s.maxMemory)
    (h : partial_fit draw s X = .error (m, s')) :
    s' = s := by
  unfold partial_fit at h
  split at h
  · next e2 heq =>
      simp only [Except.error.injEq] at h
      subst h
      have hf := foldl_ar_fields draw X.flatten s
      have hqmax1 : (X.flatten.foldl (append_reservoir draw) s).maxLengthQuantile = true →
          0 ≤ (X.flatten.foldl (append_reservoir draw) s).maxl.toQ ∧
            (X.flatten.foldl (append_reservoir draw) s).maxl.toQ ≤ 1 := by
        rw [hf.2.2.1, hf.2.2.2.2.1]
        exact hqmax
      have hqmin1 : (X.flatten.foldl (append_reservoir draw) s).minLengthQuantile = true →
          0 ≤ (X.flatten.foldl (append_reservoir draw) s).minl.toQ ∧
            (X.flatten.foldl (append_reservoir draw) s).minl.toQ ≤ 1 := by
        rw [hf.2.2.2.1, hf.2.2.2.2.2.1]
        exact hqmin
      have herr := resolveQuantiles_error_state _ m s' hqmax1 hqmin1 heq
      have hlen := foldl_ar_pool_inv draw X.flatten s hinv
      rw [herr.1] at hlen
      simp only [List.length_nil] at hlen
      have hn : X.flatten.length = 0 := by omega
      have hXnil : X.flatten = [] := List.length_eq_zero.mp hn
      rw [herr.2, hXnil]
      simp
  · simp at h

/-- C4 witness: with in-range quantile bounds `(0.25, 0.75)`, a fitting
call on a token-free batch raises from the empty reservoir, and the state
carried at the raise is exactly the input state — no mutation happened. -/
theorem tokendo_C4_witness : s4w = s4w :=
  tokendo_C4 draw0 s4w [[]]
    "cannot do a non-empty take from an empty axes" s4w
    (by intro hq; constructor <;>
      norm_num [s4w, mkState, cfg4w, defaultConfig, PyLen.toQ])
    (by intro hq; constructor <;>
      norm_num [s4w, mkState, cfg4w, defaultConfig, PyLen.toQ])
    (by norm_num [s4w, mkState, cfg4w, defaultConfig])
    (by simp [s4w, mkState])
    (by norm_num [partial_fit, resolveQuantiles, npQuantile, s4w, mkState,
      cfg4w, defaultConfig, PyLen.toQ])

/-- C5 counterexample: a frequency range with lower bound 0.5 strictly
above upper bound 0.2 is accepted by the constructor — no configuration
error is raised, contradicting the claim. -/
theorem tokendo_C5_counterexample :
    cfg510.frequencyRange.2 < cfg510.frequencyRange.1 ∧
    exceptIsOk (init cfg510) = true :=
  ⟨by norm_num [cfg510, defaultConfig], rfl⟩

/-- C5 amended: construction raises a configuration error exactly for a
malformed length-bound type (minimum not int/float, or maximum not
int/float/None); the frequency-range ordering is NOT validated — a filter
with lower bound above upper bound is constructed without error and never
errors later; its decision predicate simply rejects every token. -/
theorem tokendo_C5 :
    (∀ cfg : Config,
      exceptIsOk (init cfg) = true ↔
        (validMinBound cfg.lengthRange.1 = true ∧
         validMaxBound cfg.lengthRange.2 = true)) ∧
    (∀ (s : State) (t : String),
      s.frequencyRange.2 < s.frequencyRange.1 → passes s t = false) := by
  constructor
  · intro cfg
    obtain ⟨neg, ⟨a, b⟩, fr, mf, mm⟩ := cfg
    cases a <;> cases b <;>
      simp [init, resolveMin, resolveMax, exceptIsOk, validMinBound,
        validMaxBound]
  · intro s t h
    by_cases hlo : s.frequencyRange.1 ≤ relFreq s t
    · have hhi : ¬ relFreq s t ≤ s.frequencyRange.2 := fun hh =>
        absurd h (not_lt.mpr (hlo.trans hh))
      simp [passes, hlo, hhi]
    · simp [passes, hlo]

/-- C5 witness: the filter constructed with `frequency_range=(0.5, 0.2)`
rejects the token `"x"`. -/
theorem tokendo_C5_witness : passes s510 "x" = false :=
  tokendo_C5.2 s510 "x" (by norm_num [s510, mkState, cfg510, defaultConfig])

/-- C6: with quantile (float) length bounds `(0.1, 0.9)`, a fitting call
on a batch containing no tokens, with no prior observations, reaches
`np.quantile` on the empty reservoir and raises, instead of resolving the
bounds to the safe defaults (0 for the minimum, unbounded for the
maximum) as the specification requires. -/
theorem tokendo_C6 :
    init cfgC6x = .ok sC6x ∧
    partial_fit draw0 sC6x [[]] =
      .error ("cannot do a non-empty take from an empty axes", sC6x) :=
  ⟨rfl, by norm_num [partial_fit, resolveQuantiles, npQuantile, sC6x,
    mkState, cfgC6x, defaultConfig, PyLen.toQ]⟩

/-- C7: `fit` is exactly `partial_fit` — same resulting state (or carried
error) on every input — and in particular it does not reset previously
accumulated state: on success the seen-count grows by the batch size and
no token's accumulated count decreases. -/
theorem tokendo_C7 :
    (∀ (draw : ℕ → ℕ) (s : State) (X : List (List String)),
      fit draw s X = partial_fit draw s X) ∧
    (∀ (draw : ℕ → ℕ) (s : State) (X : List (List String)) (s' : State),
      fit draw s X = .ok s' →
      s'.seenLengths = s.seenLengths + X.flatten.length ∧
      ∀ t : String, counterGet s.frequencies t ≤ counterGet s'.frequencies t) := by
  constructor
  · intro draw s X
    rfl
  · intro draw s X s' h
    have hf := partial_fit_ok_fields draw s X s' h
    refine ⟨hf.2.1, fun t => ?_⟩
    rw [hf.1, counterGet_update]
    omega

/-- C7 witness: fitting the already-fitted default filter on `[["w"]]`
adds one to the seen-count and does not decrease the count of `"w"`. -/
theorem tokendo_C7_witness :
    d0w.seenLengths =
      d0.seenLengths + ([["w"]] : List (List String)).flatten.length ∧
    counterGet d0.frequencies "w" ≤ counterGet d0w.frequencies "w" :=
  ⟨(tokendo_C7.2 draw0 d0 [["w"]] d0w rfl).1,
   (tokendo_C7.2 draw0 d0 [["w"]] d0w rfl).2 "w"⟩

/-- C8: for a filter with reservoir capacity at least 1, after any
sequence of successful fitting calls observing `N` tokens in total, the
seen-count equals `N` and the reservoir buffer holds exactly `min N C`
recorded lengths (hence never more than `C`), regardless of the random
index draws. -/
theorem tokendo_C8 (cfg : Config) (s0 : State) (draw : ℕ → ℕ)
    (batches : List (List (List String))) (s' : State)
    (hC : 1 ≤ cfg.maxMemory)
    (hinit : init cfg = .ok s0)
    (hrun : fitSeq draw s0 batches = .ok s') :
    s'.seenLengths = totalTokens batches ∧
    s'.lengthPool.length = min (totalTokens batches) cfg.maxMemory ∧
    s'.lengthPool.length ≤ cfg.maxMemory := by
  obtain ⟨hpool0, hseen0, -, -, hmm0, -, -, -⟩ := init_ok_state cfg s0 hinit
  have hinv0 : s0.lengthPool.length = min s0.seenLengths s0.maxMemory := by
    rw [hpool0, hseen0]
    simp
  obtain ⟨hseen, hmm, hpool⟩ := fitSeq_ok_inv draw batches s0 s' hrun hinv0
  have h1 : s'.seenLengths = totalTokens batches := by
    rw [hseen, hseen0]
    omega
  refine ⟨h1, ?_, ?_⟩
  · rw [hpool, h1, hmm, hmm0]
  · rw [hpool, hmm, hmm0]
    exact min_le_right _ _

/-- C8 witness: with capacity 2, after one fitting call observing three
tokens the seen-count is 3 and the buffer holds `min 3 2 = 2` lengths. -/
theorem tokendo_C8_witness :
    s8'.seenLengths = totalTokens batches8 ∧
    s8'.lengthPool.length = min (totalTokens batches8) cfg8.maxMemory ∧
    s8'.lengthPool.length ≤ cfg8.maxMemory :=
  tokendo_C8 cfg8 s8 draw0 batches8 s8'
    (by norm_num [cfg8, defaultConfig]) rfl rfl

/-- C9: the filter constructed with all defaults and never fitted is the
identity: `transform` returns every input unchanged. -/
theorem tokendo_C9 :
    ∀ X : List (List String),
      Except.map (fun s => transform s X) (init defaultConfig) = .ok X := by
  intro X
  have hinit : init defaultConfig = .ok d0 := rfl
  rw [hinit]
  simp only [Except.map]
  have hp : ∀ t : String, passes d0 t = true := by
    intro t
    norm_num [passes, relFreq, counterTotal, d0, mkState, defaultConfig]
  rw [transform_eq_map_filter]
  have hfilter : ∀ doc : List String, doc.filter (fun t => passes d0 t) = doc := by
    intro doc
    simp [hp]
  simp [hfilter]

/-- C10: with a positive `max_features` cap configured, the most-common
vocabulary is `None` before any fitting call, so the vocabulary criterion
passes every token: the unfitted filter decides exactly as the same
configuration without a cap. -/
theorem tokendo_C10 (cfg : Config) (k : ℕ) (s s' : State)
    (hk : cfg.maxFeatures = some k) (hkpos : 0 < k)
    (hs : init cfg = .ok s)
    (hs' : init { cfg with maxFeatures := none } = .ok s') :
    s.mostCommon = none ∧ ∀ t : String, passes s t = passes s' t := by
  have h1 := init_setMaxFeatures cfg none s hs
  rw [hs'] at h1
  simp only [Except.ok.injEq] at h1
  refine ⟨(init_ok_state cfg s hs).2.2.2.1, fun t => ?_⟩
  rw [h1]
  exact (passes_setMaxFeatures s none t).symm

/-- C10 witness: with `max_features=2` and no fitting call, the
vocabulary is unset and the token `"x"` is decided exactly as under the
default (uncapped) configuration. -/
theorem tokendo_C10_witness :
    s10.mostCommon = none ∧ passes s10 "x" = passes d0 "x" :=
  ⟨(tokendo_C10 cfg10 2 s10 d0 rfl (by norm_num) rfl rfl).1,
   (tokendo_C10 cfg10 2 s10 d0 rfl (by norm_num) rfl rfl).2 "x"⟩

end Tokendo
